import Mathlib

/-!
Verification development for the Natours tour-booking API.

This file gives a shallow embedding, in Lean 4, of the executable core of the
repository: the query translator (`APIFeatures`), the generic CRUD handler
factory, the authentication middleware (`protect`, `restrictTo`), the user and
review model lifecycle hooks (password hashing, soft delete, password reset,
rating aggregation), and the review controller middleware (`setTourUserIds`).
Each definition is translated from the corresponding JavaScript source, and the
theorems at the end of the file settle the specification's claims about them.

Conventions of the embedding:
* JavaScript strings stay `String`; absent / `undefined` values become
  `Option`; machine numbers that the code treats exactly (timestamps, counts)
  become `Nat`; values on which JavaScript performs fractional arithmetic
  (ratings averages, query-string numbers) become `ℚ`.
* A thrown exception becomes an `Except` / error branch.
* The MongoDB collection behind a model becomes a `List` of documents, and a
  Mongoose query becomes an explicit filter over that list.
-/

namespace Natours

/-! ### Query translator: `utils/apiFeatures.js`

`APIFeatures` receives `req.query`, the flat key/value map Express parses from
the URL query string.  A plain parameter `?difficulty=easy` arrives as a string
value; a bracket-suffixed parameter `?duration[gte]=5` arrives as a one-level
nested object of strings.  `QVal` models exactly those two shapes.
-/

/-- A query-string value as Express delivers it: either a plain string or a
one-level object of string fields (from bracket syntax such as
`duration[gte]=5`). -/
inductive QVal where
  | str (s : String)
  | obj (fields : List (String × String))
  deriving DecidableEq, Repr

/-- A parsed query object: keys paired with their values, in order. -/
abbrev QueryMap := List (String × QVal)

/-! #### JavaScript number coercion

`pagination()` coerces with `this.queryString.page * 1`.  Multiplying a string
by 1 applies JavaScript's `Number()` conversion: trimmed empty string gives 0,
an optionally signed decimal numeral gives its value, anything else gives
`NaN`; `undefined * 1` is `NaN`.  `jsNumber?` models that conversion on the
decimal-numeral fragment (sign, digits, optional decimal point), returning
`none` for `NaN`; exponent, hexadecimal and `Infinity` forms are outside the
model. -/

/-- Value of a list of decimal digit characters, `none` if a non-digit occurs.
The empty list yields `some 0`; callers guard against an all-empty numeral. -/
def digitsToNat (l : List Char) : Option Nat :=
  l.foldl
    (fun acc c =>
      match acc with
      | none => none
      | some n => if c.isDigit then some (10 * n + (c.toNat - 48)) else none)
    (some 0)

/-- Strip leading and trailing whitespace, as `Number()` does before
converting. -/
def jsTrim (cs : List Char) : List Char :=
  ((cs.dropWhile Char.isWhitespace).reverse.dropWhile Char.isWhitespace).reverse

/-! #### Kernel-computable rational arithmetic

The library's field operations on `ℚ` are `@[irreducible]`, so a concrete
witness could not evaluate them with `decide`.  The embedding therefore
performs its exact arithmetic through `mkRat` (which the kernel does reduce),
and the bridge lemmas `qAdd_eq`, `qSub_eq`, `qMul_eq`, `qDivNat_eq` below show
these are the ordinary rational operations, so the theorems can be stated with
the usual `+`, `-`, `*`, `/`. -/

/-- `a + b` on `ℚ`, computed through `mkRat`. -/
def qAdd (a b : ℚ) : ℚ := mkRat (a.num * b.den + b.num * a.den) (a.den * b.den)

/-- `a - b` on `ℚ`, computed through `mkRat`. -/
def qSub (a b : ℚ) : ℚ := mkRat (a.num * b.den - b.num * a.den) (a.den * b.den)

/-- `a * b` on `ℚ`, computed through `mkRat`. -/
def qMul (a b : ℚ) : ℚ := mkRat (a.num * b.num) (a.den * b.den)

/-- `a / n` for a natural `n`, computed through `mkRat`. -/
def qDivNat (a : ℚ) (n : Nat) : ℚ := mkRat a.num (a.den * n)

/-- Sum of a list of rationals, computed through `mkRat`. -/
def qSum (l : List ℚ) : ℚ := l.foldr qAdd 0

/-- JavaScript `Number(s)` on the decimal-numeral fragment; `none` models
`NaN`. -/
def jsNumber? (s : String) : Option ℚ :=
  let cs := jsTrim s.data
  if cs = [] then some 0
  else
    let signed : Bool × List Char :=
      match cs with
      | '-' :: r => (true, r)
      | '+' :: r => (false, r)
      | r => (false, r)
    let neg := signed.1
    let intPart := signed.2.takeWhile (·.isDigit)
    let rest := signed.2.dropWhile (·.isDigit)
    let mk : Nat → Nat → Option ℚ := fun n k =>
      some (mkRat (if neg then -(n : Int) else (n : Int)) (10 ^ k))
    match rest with
    | [] =>
        if intPart = [] then none
        else (digitsToNat intPart).bind (fun n => mk n 0)
    | '.' :: frac =>
        if frac.any (fun c => !c.isDigit) then none
        else if intPart = [] ∧ frac = [] then none
        else
          match digitsToNat intPart, digitsToNat frac with
          | some i, some f => mk (i * 10 ^ frac.length + f) frac.length
          | _, _ => none
    | _ => none

/-- JavaScript `x || d` on a number that may be `NaN` (`none`): `NaN`, `0` and
`-0` are falsy, every other number is kept. -/
def jsOrDefault (v : Option ℚ) (d : ℚ) : ℚ :=
  match v with
  | some x => if x = 0 then d else x
  | none => d

/-- Result of the pagination stage: the page and limit actually used and the
record-skip count passed to the query. -/
structure PageLimit where
  page : ℚ
  limit : ℚ
  skip : ℚ
  deriving DecidableEq, Repr

/-- `APIFeatures.pagination()`:
`page = queryString.page * 1 || 1`, `limit = queryString.limit * 1 || 100`,
`skip = (page - 1) * limit`; the query gets `.skip(skip).limit(limit)`.
`pageStr` / `limitStr` are the raw query-string entries (`none` when the key is
absent, in which case `undefined * 1` is `NaN`). -/
def pagination (pageStr limitStr : Option String) : PageLimit :=
  let page := jsOrDefault (pageStr.bind jsNumber?) 1
  let limit := jsOrDefault (limitStr.bind jsNumber?) 100
  { page := page, limit := limit, skip := qMul (qSub page 1) limit }

/-- The pagination stage exactly as claim C8 words it: "the page used is the
numeric value of `page` or 1 when absent or non-numeric", and likewise limit
with default 100.  (Follows the claim's words, for comparison with
`pagination`, which follows the code.) -/
def paginationClaimC8 (pageStr limitStr : Option String) : PageLimit :=
  let page := (pageStr.bind jsNumber?).getD 1
  let limit := (limitStr.bind jsNumber?).getD 100
  { page := page, limit := limit, skip := qMul (qSub page 1) limit }

/-! #### Filter stage

```javascript
filter() {
  const queryObj = { ...this.queryString };
  const excludedFields = ['page', 'sort', 'limit', 'fields'];
  excludedFields.forEach((el) => delete queryObj[el]);
  let queryStr = JSON.stringify(queryObj);
  queryStr = queryStr.replace(/\b(gte|gt|lte|lt)\b/g, (match) => `$\x7bmatch\x7d`);
  this.query = this.query.find(JSON.parse(queryStr));
  return this;
}
```

The regex replacement runs over the whole JSON serialization.  Since the
serialization of a `QueryMap` separates keys and string values by the
non-word characters `"`, `:`, `,`, `\x7b`, `\x7d`, and the replacement only inserts
`$` characters (never quotes or braces), the stringify/replace/parse round
trip is exactly: apply the word-boundary token replacement to every key and
every string leaf independently.  `replaceOps` implements that word-boundary
replacement on a single string. -/

/-- Word characters for the JavaScript regex `\b` boundary: `[A-Za-z0-9_]`. -/
def isWordChar (c : Char) : Bool :=
  ('a' ≤ c ∧ c ≤ 'z') ∨ ('A' ≤ c ∧ c ≤ 'Z') ∨ ('0' ≤ c ∧ c ≤ '9') ∨ c = '_'

/-- Does a word boundary follow here (next character absent or non-word)? -/
def boundaryAfter : List Char → Bool
  | [] => true
  | c :: _ => !isWordChar c

/-- One global pass of `replace(/\b(gte|gt|lte|lt)\b/g, m => '$' + m)` over a
character list.  `prevWord` records whether the previously emitted character
was a word character (so `\b` holds exactly when it is `false`). -/
def replaceOpsAux : Bool → List Char → List Char
  | _, [] => []
  | false, 'g' :: 't' :: 'e' :: r =>
      if boundaryAfter r then '$' :: 'g' :: 't' :: 'e' :: replaceOpsAux true r
      else 'g' :: replaceOpsAux true ('t' :: 'e' :: r)
  | false, 'g' :: 't' :: r =>
      if boundaryAfter r then '$' :: 'g' :: 't' :: replaceOpsAux true r
      else 'g' :: replaceOpsAux true ('t' :: r)
  | false, 'l' :: 't' :: 'e' :: r =>
      if boundaryAfter r then '$' :: 'l' :: 't' :: 'e' :: replaceOpsAux true r
      else 'l' :: replaceOpsAux true ('t' :: 'e' :: r)
  | false, 'l' :: 't' :: r =>
      if boundaryAfter r then '$' :: 'l' :: 't' :: replaceOpsAux true r
      else 'l' :: replaceOpsAux true ('t' :: r)
  | _, c :: rest => c :: replaceOpsAux (isWordChar c) rest

/-- `s.replace(/\b(gte|gt|lte|lt)\b/g, m => '$' + m)` on one string. -/
def replaceOps (s : String) : String :=
  String.mk (replaceOpsAux false s.data)

/-- A string is operator-free when the regex replacement leaves it unchanged,
i.e. it contains none of `gte`, `gt`, `lte`, `lt` as a word-boundary-delimited
token. -/
def opFree (s : String) : Prop := replaceOps s = s

instance (s : String) : Decidable (opFree s) := by
  unfold opFree; infer_instance

/-- The reserved query keys the filter stage deletes before filtering. -/
def excludedFields : List String := ["page", "sort", "limit", "fields"]

/-- The word-boundary operator replacement applied to one query value (every
string leaf of the JSON serialization). -/
def replaceOpsVal : QVal → QVal
  | .str s => .str (replaceOps s)
  | .obj m => .obj (m.map (fun p => (replaceOps p.1, replaceOps p.2)))

/-- `APIFeatures.filter()`: drop the reserved keys, then apply the global
regex replacement to the JSON serialization of what remains (equivalently, to
each remaining key and string leaf — see the module comment above). -/
def filterStage (q : QueryMap) : QueryMap :=
  (q.filter (fun kv => !excludedFields.contains kv.1)).map
    (fun kv => (replaceOps kv.1, replaceOpsVal kv.2))

/-- The filter stage exactly as claim C9 words it: reserved keys are removed,
a bracket-suffixed operator `gte`/`gt`/`lte`/`lt` becomes the `$`-prefixed
comparison, and every other remaining key becomes an equality constraint on
the same-named field with its value untouched.  (Follows the claim's words,
for comparison with `filterStage`, which follows the code.) -/
def filterStageClaimC9 (q : QueryMap) : QueryMap :=
  (q.filter (fun kv => !excludedFields.contains kv.1)).map
    (fun kv =>
      (kv.1,
        match kv.2 with
        | .str s => .str s
        | .obj m =>
            .obj (m.map (fun p =>
              (if p.1 ∈ ["gte", "gt", "lte", "lt"] then "$" ++ p.1 else p.1,
               p.2)))))

/-! ### Review model: `models/reviewModel.js`

A review document: text, a 1–5 rating, and references to the owning tour and
the authoring user.  (Older documentation snapshots name the reference fields
`tourId`/`userId`; the current controller uses `tour`/`user`.  The Lean field
names follow the current controller; nothing below depends on the spelling.) -/

/-- A persisted review document. -/
structure Review where
  id : String
  review : String
  rating : ℚ
  tour : String
  user : String
  deriving DecidableEq, Repr

/-- One group produced by the `$group` stage of `calcAverageRatings`. -/
structure RatingStats where
  nRating : Nat
  avgRating : ℚ
  deriving DecidableEq, Repr

/-- The aggregation pipeline inside `calcAverageRatings`:
`$match` on the tour reference, then `$group` with `nRating: $sum: 1` and
`avgRating: $avg: $rating`.  A `$group` over an empty match set produces no
groups, so the result array is empty exactly when the tour has no reviews. -/
def ratingAggregate (db : List Review) (tourId : String) : List RatingStats :=
  let matched := db.filter (fun r => r.tour == tourId)
  if matched.isEmpty then []
  else [⟨matched.length, qDivNat (qSum (matched.map Review.rating)) matched.length⟩]

/-- The rating fields of a tour document. -/
structure TourRatings where
  ratingsAverage : ℚ
  ratingsQuantity : Nat
  deriving DecidableEq, Repr

/-- Schema defaults of the tour rating fields: `ratingsAverage: 4.5`,
`ratingsQuantity: 0`. -/
def tourRatingsDefault : TourRatings := ⟨mkRat 9 2, 0⟩

/-- `reviewSchema.statics.calcAverageRatings(tourId)`:

```javascript
const stats = await this.aggregate([
  \x7b $match: \x7b tourId: tourId \x7d \x7d,
  \x7b $group: \x7b _id: '$tourId', nRating: \x7b $sum: 1 \x7d, avgRating: \x7b $avg: '$rating' \x7d \x7d \x7d
]);
await Tour.findByIdAndUpdate(tourId, \x7b
  ratingsQuantity: stats[0].nRating,
  ratingsAverage: stats[0].avgRating
\x7d);
```

`stats[0]` is read unconditionally: when the tour has no remaining reviews the
aggregate returns an empty array, `stats[0]` is `undefined`, and reading
`.nRating` throws a `TypeError` before the tour update runs.  The `Except`
error branch models that throw. -/
def calcAverageRatings (db : List Review) (tourId : String) :
    Except String TourRatings :=
  match ratingAggregate db tourId with
  | [] => .error "TypeError: Cannot read properties of undefined (reading nRating)"
  | stats0 :: _ => .ok ⟨stats0.avgRating, stats0.nRating⟩

/-- The tour rating fields once a review write settles: the post hook calls
`calcAverageRatings`; if it returns, its result is written back to the tour,
and if it throws, `Tour.findByIdAndUpdate` never runs and the tour keeps its
previous values. -/
def settleTourRatings (db : List Review) (tourId : String) (tour : TourRatings) :
    TourRatings :=
  match calcAverageRatings db tourId with
  | .ok t => t
  | .error _ => tour

/-- `Review.create` followed by the `post('save')` hook: append the document,
then recompute the owning tour's rating fields. -/
def reviewCreateSettle (db : List Review) (r : Review) (tour : TourRatings) :
    List Review × TourRatings :=
  let db2 := db ++ [r]
  (db2, settleTourRatings db2 r.tour tour)

/-- `findByIdAndUpdate` of a review's rating followed by the
`post(/^findOneAnd/)` hook.  When no review has the id the update matches
nothing and no hook fires. -/
def reviewUpdateSettle (db : List Review) (rid : String) (newRating : ℚ)
    (tour : TourRatings) : List Review × TourRatings :=
  match db.find? (fun r => r.id == rid) with
  | none => (db, tour)
  | some r0 =>
      let db2 := db.map (fun r => if r.id == rid then { r with rating := newRating } else r)
      (db2, settleTourRatings db2 r0.tour tour)

/-- `findByIdAndDelete` of a review followed by the `post(/^findOneAnd/)`
hook.  When no review has the id nothing is deleted and no hook fires. -/
def reviewDeleteSettle (db : List Review) (rid : String) (tour : TourRatings) :
    List Review × TourRatings :=
  match db.find? (fun r => r.id == rid) with
  | none => (db, tour)
  | some r0 =>
      let db2 := db.filter (fun r => !(r.id == rid))
      (db2, settleTourRatings db2 r0.tour tour)

/-- The ratings of a tour's current reviews (the multiset the claim's
"arithmetic mean" ranges over). -/
def tourReviewRatings (db : List Review) (tourId : String) : List ℚ :=
  (db.filter (fun r => r.tour == tourId)).map Review.rating

/-! ### User model: `models/userModel.js` -/

/-- A persisted user document.  `Option` fields are absent (`undefined`) when
`none`; `password` is `Option` because the schema's `select: false` lets query
results omit the field. -/
structure UserDoc where
  id : String
  name : String
  email : String
  role : String
  photo : String
  password : Option String
  passwordConfirm : Option String
  passwordChangedAt : Option Nat
  passwordResetToken : Option String
  passwordResetExpires : Option Nat
  active : Bool
  deriving DecidableEq, Repr

/-- `userSchema.pre('save')` (hash hook): if the password was modified, replace
it with `bcrypt.hash(password, 10)` and drop `passwordConfirm`.  `bcryptHash`
stands for the external `bcrypt.hash` with its salt fixed. -/
def preSaveHashPassword (bcryptHash : String → String) (modifiedPassword : Bool)
    (u : UserDoc) : UserDoc :=
  if modifiedPassword then
    { u with password := u.password.map bcryptHash, passwordConfirm := none }
  else u

/-- `userSchema.pre('save')` (timestamp hook): if the password was modified and
the document is not new, set `passwordChangedAt = Date.now() - 1000` (one
second early, to tolerate token-issue skew). -/
def preSaveChangedAt (now : Nat) (modifiedPassword isNew : Bool) (u : UserDoc) :
    UserDoc :=
  if modifiedPassword && !isNew then { u with passwordChangedAt := some (now - 1000) }
  else u

/-- `user.save()`: both pre-save hooks, then the document is persisted. -/
def saveUser (bcryptHash : String → String) (now : Nat)
    (modifiedPassword isNew : Bool) (u : UserDoc) : UserDoc :=
  preSaveChangedAt now modifiedPassword isNew
    (preSaveHashPassword bcryptHash modifiedPassword u)

/-- `User.findById` as issued by the controllers: `userSchema.pre(/^find/)`
first merges `\x7b active: \x7b $ne: false \x7d \x7d` into every find query, so inactive
documents are invisible. -/
def findById (store : List UserDoc) (uid : String) : Option UserDoc :=
  (store.filter (fun u => u.active != false)).find? (fun u => u.id == uid)

/-- The password field's `select: false`: a query that does not opt in with
`.select('+password')` returns the document without its password field. -/
def applyDefaultSelect (u : UserDoc) : UserDoc := { u with password := none }

/-- `userSchema.methods.changedPasswordAfter(JWTTimestamp)`:

```javascript
if (this.passwordChangedAt) \x7b
  const changedTimestamp = parseInt(this.passwordChangedAt.getTime() / 1000, 10);
  return JWTTimestamp < changedTimestamp;
\x7d
return false;
```

`passwordChangedAt` is milliseconds since the epoch; `parseInt(·/1000)`
truncates to seconds. -/
def changedPasswordAfter (u : UserDoc) (jwtTimestamp : Nat) : Bool :=
  match u.passwordChangedAt with
  | some ms => jwtTimestamp < ms / 1000
  | none => false

/-- `userSchema.methods.createPasswordResetToken()`: store the SHA-256 hash of
a fresh random token and a 10-minute expiry on the document, and return the
plaintext token (sent by email).  `sha256Hex` stands for the external
`crypto.createHash('sha256')        .update(·).digest('hex')`; `resetToken`
stands for the `crypto.randomBytes(32).toString('hex')` draw. -/
def createPasswordResetToken (sha256Hex : String → String) (resetToken : String)
    (now : Nat) (u : UserDoc) : UserDoc × String :=
  ({ u with
      passwordResetToken := some (sha256Hex resetToken),
      passwordResetExpires := some (now + 10 * 60 * 1000) },
   resetToken)

/-! ### Auth middleware and controller: `controllers/authController.js` -/

/-- The payload of a verified JWT: the subject user id and the issue time
(`iat`, seconds since the epoch). -/
structure TokenPayload where
  id : String
  iat : Nat
  deriving DecidableEq, Repr

/-- Outcome of a middleware stage: continue with the loaded user, or
short-circuit with an HTTP error. -/
inductive MwResult where
  | ok (user : UserDoc)
  | err (statusCode : Nat) (message : String)
  deriving DecidableEq, Repr

/-- `exports.protect`: require a Bearer token, verify it, load the (active)
user, reject tokens issued before the last password change, else attach the
user.  `token` is the verified payload (`none` when the header is missing or
`jwt.verify` rejected the token — both 401 outcomes upstream of the stages
modelled here). -/
def protect (store : List UserDoc) (token : Option TokenPayload) : MwResult :=
  match token with
  | none => .err 401 "Not logged in"
  | some decoded =>
      match findById store decoded.id with
      | none => .err 401 "User no longer exists"
      | some currentUser =>
          if changedPasswordAfter currentUser decoded.iat then
            .err 401 "Password recently changed! Please login again"
          else .ok currentUser

/-- `exports.restrictTo(...roles)`: 403 when the authenticated user's role is
not in the allowed set, else continue. -/
def restrictTo (roles : List String) (user : UserDoc) : MwResult :=
  if !roles.contains user.role then
    .err 403 "You do not have permission to perform this action"
  else .ok user

/-- An auth endpoint's success response, as assembled by `createSendToken`. -/
structure AuthResponse where
  statusCode : Nat
  status : String
  token : TokenPayload
  user : UserDoc
  deriving DecidableEq, Repr

/-- `createSendToken(user, statusCode, res)`: sign a fresh token for the
user's id, blank the in-memory password (`user.password = undefined`) and send
`\x7b status: 'success', token, data: \x7b user \x7d \x7d`. -/
def createSendToken (user : UserDoc) (statusCode : Nat) (now : Nat) : AuthResponse :=
  { statusCode := statusCode
    status := "success"
    token := ⟨user.id, now⟩
    user := { user with password := none } }

/-- Body of a `POST /signup` request (extra fields are ignored here). -/
structure SignupBody where
  name : String
  email : String
  password : String
  passwordConfirm : String
  deriving DecidableEq, Repr

/-- `exports.signup`: `User.create(req.body)` (schema validation, then the
pre-save hooks on a new document) followed by `createSendToken(newUser, 201)`.
The `passwordConfirm` validator compares the two plaintext fields; a mismatch
is a 400 validation error and nothing is persisted. -/
def signup (bcryptHash : String → String) (store : List UserDoc) (b : SignupBody)
    (newId : String) (now : Nat) :
    Except (Nat × String) (List UserDoc × AuthResponse) :=
  if b.password ≠ b.passwordConfirm then .error (400, "Passwords are not same")
  else
    let newUser : UserDoc :=
      { id := newId, name := b.name, email := b.email, role := "user"
        photo := "default.jpg"
        password := some b.password, passwordConfirm := some b.passwordConfirm
        passwordChangedAt := none, passwordResetToken := none
        passwordResetExpires := none, active := true }
    let saved := saveUser bcryptHash now true true newUser
    .ok (store ++ [saved], createSendToken saved 201 now)

/-- The lookup predicate of `resetPassword`:
`User.findOne(\x7b passwordResetToken: hashedToken, passwordResetExpires: \x7b $gt: Date.now() \x7d \x7d)`,
with the `userSchema.pre(/^find/)` hook's `\x7b active: \x7b $ne: false \x7d \x7d` filter
merged in (the hook applies to every `find` query, this `findOne` included, so
an inactive token-holder is never matched). -/
def resetMatcher (hashedToken : String) (now : Nat) (u : UserDoc) : Bool :=
  u.active != false &&
    (u.passwordResetToken == some hashedToken &&
      (match u.passwordResetExpires with
       | some e => decide (now < e)
       | none => false))

/-- `exports.resetPassword`: re-hash the URL token, look it up with the expiry
check, 400 when nothing matches; on a match set the new password (with its
confirmation), clear both reset fields, save (pre-save hooks re-hash and stamp
`passwordChangedAt`), and log the user in via `createSendToken(user, 200)`. -/
def resetPassword (sha256Hex bcryptHash : String → String) (store : List UserDoc)
    (token newPassword newPasswordConfirm : String) (now : Nat) :
    Except (Nat × String) (List UserDoc × AuthResponse) :=
  let hashedToken := sha256Hex token
  match store.find? (resetMatcher hashedToken now) with
  | none => .error (400, "Token is invalid or has expired")
  | some user =>
      if newPassword ≠ newPasswordConfirm then .error (400, "Passwords are not same")
      else
        let updated := saveUser bcryptHash now true false
          { user with
              password := some newPassword
              passwordConfirm := some newPasswordConfirm
              passwordResetToken := none
              passwordResetExpires := none }
        .ok (store.map (fun v => if v.id == user.id then updated else v),
             createSendToken updated 200 now)

/-! ### User controller: `controllers/userController.js` -/

/-- `exports.deleteMe`: `User.findByIdAndUpdate(req.user.id, \x7b active: false \x7d)`
then a 204 with no body.  (The `pre(/^find/)` hook restricts the update's
lookup to active documents; `deleteMe` runs behind `protect`, whose user is
active.)  Only the `active` flag is written. -/
def deleteMe (store : List UserDoc) (uid : String) : List UserDoc × Nat :=
  (store.map (fun u => if u.id == uid && u.active then { u with active := false } else u),
   204)

/-- `exports.createUser`: a disabled placeholder —

```javascript
res.status(500).json(\x7b status: 'error', message: 'This route is not yet defined' \x7d);
```

The request body is never read and nothing is persisted (signup is the only
creation path). -/
def createUser (store : List UserDoc) : List UserDoc × (Nat × String × String) :=
  (store, (500, "error", "This route is not yet defined"))

/-- The `POST /api/v1/users` route: `router.use(protect)`, then
`router.use(restrictTo('admin'))`, then `router.route('/').post(createUser)`.
The error envelope's `status` is `fail` for the middleware's 4xx outcomes and
`error` for the handler's 500. -/
def postUsers (store : List UserDoc) (token : Option TokenPayload) :
    List UserDoc × (Nat × String × String) :=
  match protect store token with
  | .err c m => (store, (c, "fail", m))
  | .ok user =>
      match restrictTo ["admin"] user with
      | .err c m => (store, (c, "fail", m))
      | .ok _ => createUser store

/-- `factory.deleteOne(User)` (admin hard delete):
`User.findByIdAndDelete(req.params.id)`, 404 when the lookup (which the
`pre(/^find/)` hook restricts to active documents) finds nothing, else the
document is removed and a 204 returned. -/
def adminDeleteUser (store : List UserDoc) (uid : String) : List UserDoc × Nat :=
  match (store.filter (fun u => u.active != false)).find? (fun u => u.id == uid) with
  | none => (store, 404)
  | some doc => (store.filter (fun u => u ≠ doc), 204)

/-! ### Generic `getAll` factory: `controllers/handlerFactory.js`, nested route

```javascript
let filter = \x7b\x7d;
if (req.params.tourId) filter = \x7b tourId: req.params.tourId \x7d;
const features = new APIFeatures(Model.find(filter), req.query)
  .filter().sort().limitFields().pagination();
const doc = await features.query;
res.status(200).json(\x7b status: 'success', results: doc.length, data: \x7b data: doc \x7d \x7d);
```

Specialised to `Review`.  The user-controlled stages only narrow, reorder and
slice the rows produced by `Model.find(filter)`: the translated filter
constraints act as a predicate (`userFilter`), the sort stage as a reordering
(`sortPass`; theorems assume it returns a sublist-permutation of its input),
and the pagination stage as the skip/limit slice. -/

/-- `factory.getAll(Review)`: the returned document array and the `results`
count. -/
def getAllReviews (db : List Review) (tourIdParam : Option String)
    (userFilter : Review → Bool) (sortPass : List Review → List Review)
    (skip lim : Nat) : List Review × Nat :=
  let base : List Review :=
    match tourIdParam with
    | some tid => db.filter (fun r => r.tour == tid)
    | none => db
  let doc := ((sortPass (base.filter userFilter)).drop skip).take lim
  (doc, doc.length)

/-! ### Review controller middleware: `controllers/reviewController.js` -/

/-- The review-creation request body fields `setTourUserIds` manipulates;
`none` is an absent key.  JavaScript truthiness makes the empty string falsy
too, hence `jsTruthy`. -/
structure ReviewBody where
  tour : Option String
  user : Option String
  tourId : Option String
  userId : Option String
  deriving DecidableEq, Repr

/-- JavaScript truthiness of a possibly-absent string. -/
def jsTruthy : Option String → Bool
  | some s => s ≠ ""
  | none => false

/-- `exports.setTourUserIds`:

```javascript
if (!req.body.tour) req.body.tour = req.params.tourId;
if (!req.body.tour && req.body.tourId) req.body.tour = req.body.tourId;
if (!req.body.user) req.body.user = req.user.id;
if (!req.body.user && req.body.userId) req.body.user = req.body.userId;
delete req.body.tourId;
delete req.body.userId;
```

`paramsTourId` is `req.params.tourId` (absent on the non-nested
`POST /reviews` route) and `reqUserId` is `req.user.id` set by `protect`. -/
def setTourUserIds (paramsTourId : Option String) (reqUserId : String)
    (b : ReviewBody) : ReviewBody :=
  let b1 := if !jsTruthy b.tour then { b with tour := paramsTourId } else b
  let b2 :=
    if !jsTruthy b1.tour && jsTruthy b1.tourId then { b1 with tour := b1.tourId } else b1
  let b3 := if !jsTruthy b2.user then { b2 with user := some reqUserId } else b2
  let b4 :=
    if !jsTruthy b3.user && jsTruthy b3.userId then { b3 with user := b3.userId } else b3
  { b4 with tourId := none, userId := none }

/-- `setTourUserIds` exactly as claim C10 words it: the `tourId`/`userId` keys
are deleted, `body.tour` defaults to the URL parameter and `body.user` to the
authenticated user, and a client-supplied `tourId`/`userId` body key is never
used.  (Follows the claim's words, for comparison with `setTourUserIds`,
which follows the code.) -/
def setTourUserIdsClaimC10 (paramsTourId : Option String) (reqUserId : String)
    (b : ReviewBody) : ReviewBody :=
  { tour := if jsTruthy b.tour then b.tour else paramsTourId
    user := if jsTruthy b.user then b.user else some reqUserId
    tourId := none
    userId := none }

/-! ## Helper lemmas -/

/-- `qAdd` is rational addition. -/
theorem qAdd_eq (a b : ℚ) : qAdd a b = a + b := by
  have ha : (a.den : ℚ) ≠ 0 := Nat.cast_ne_zero.mpr a.den_ne_zero
  have hb : (b.den : ℚ) ≠ 0 := Nat.cast_ne_zero.mpr b.den_ne_zero
  rw [qAdd, Rat.mkRat_eq_div]
  conv_rhs => rw [← Rat.num_div_den a, ← Rat.num_div_den b]
  push_cast
  field_simp
  try ring

/-- `qSub` is rational subtraction. -/
theorem qSub_eq (a b : ℚ) : qSub a b = a - b := by
  have ha : (a.den : ℚ) ≠ 0 := Nat.cast_ne_zero.mpr a.den_ne_zero
  have hb : (b.den : ℚ) ≠ 0 := Nat.cast_ne_zero.mpr b.den_ne_zero
  rw [qSub, Rat.mkRat_eq_div]
  conv_rhs => rw [← Rat.num_div_den a, ← Rat.num_div_den b]
  push_cast
  field_simp
  ring

/-- `qMul` is rational multiplication. -/
theorem qMul_eq (a b : ℚ) : qMul a b = a * b := by
  rw [qMul, Rat.mkRat_eq_div]
  push_cast
  rw [← div_mul_div_comm, Rat.num_div_den, Rat.num_div_den]

/-- `qDivNat` is rational division by a natural. -/
theorem qDivNat_eq (a : ℚ) (n : Nat) : qDivNat a n = a / (n : ℚ) := by
  rw [qDivNat, Rat.mkRat_eq_div]
  push_cast
  rw [← div_div, Rat.num_div_den]

/-- `qSum` is the sum of the list. -/
theorem qSum_eq (l : List ℚ) : qSum l = l.sum := by
  induction l with
  | nil => rfl
  | cons x xs ih =>
      simp only [qSum, List.foldr_cons] at ih ⊢
      rw [qAdd_eq, ih, List.sum_cons]

/-- The regex replacement either leaves the character list unchanged or inserts
a `$` character (it never produces other new characters). -/
theorem replaceOpsAux_eq_or_dollar (prev : Bool) (l : List Char) :
    replaceOpsAux prev l = l ∨ '$' ∈ replaceOpsAux prev l := by
  induction prev, l using replaceOpsAux.induct <;>
    (simp_all [replaceOpsAux]; try tauto)

/-! ## Claim C8 — pagination stage -/

/-- C8 counterexample: the claim says the page used is "the numeric value of
`page` or 1 when absent or non-numeric", but for `page=0` — numeric — the code
uses 1, because JavaScript's `|| 1` treats the number 0 as falsy. -/
theorem c8_zero_page_counterexample :
    (pagination (some "0") (some "10")).page = 1
    ∧ (paginationClaimC8 (some "0") (some "10")).page = 0
    ∧ pagination (some "0") (some "10") ≠ paginationClaimC8 (some "0") (some "10") := by
  decide

/-- C8 (amended): for every query-string map given to the pagination stage,
the page used is the numeric value of `page` — or 1 when `page` is absent,
non-numeric, or coerces to the falsy number 0 — the limit likewise with
default 100, the applied record-skip count equals `(page - 1) * limit`, and no
error is raised (the function is total). -/
theorem c8_pagination_defaults (p l : Option String) :
    (pagination p l).skip = ((pagination p l).page - 1) * (pagination p l).limit
    ∧ (p.bind jsNumber? = none → (pagination p l).page = 1)
    ∧ (∀ v : ℚ, p.bind jsNumber? = some v → v ≠ 0 → (pagination p l).page = v)
    ∧ (∀ v : ℚ, p.bind jsNumber? = some v → v = 0 → (pagination p l).page = 1)
    ∧ (l.bind jsNumber? = none → (pagination p l).limit = 100)
    ∧ (∀ v : ℚ, l.bind jsNumber? = some v → v ≠ 0 → (pagination p l).limit = v)
    ∧ (∀ v : ℚ, l.bind jsNumber? = some v → v = 0 → (pagination p l).limit = 100) := by
  refine ⟨?_, ?_, ?_, ?_, ?_, ?_, ?_⟩
  · simp [pagination, qMul_eq, qSub_eq]
  · intro h; simp [pagination, jsOrDefault, h]
  · intro v h hv; simp [pagination, jsOrDefault, h, hv]
  · intro v h hv; simp [pagination, jsOrDefault, h, hv]
  · intro h; simp [pagination, jsOrDefault, h]
  · intro v h hv; simp [pagination, jsOrDefault, h, hv]
  · intro v h hv; simp [pagination, jsOrDefault, h, hv]

/-- C8 witness: `page=3, limit=7` is used as given with skip `(3-1)*7`;
`limit=abc` falls back to 100. -/
theorem c8_pagination_defaults_witness :
    (pagination (some "3") (some "7")).page = 3
    ∧ (pagination (some "7") (some "abc")).limit = 100
    ∧ (pagination (some "3") (some "7")).skip
        = ((pagination (some "3") (some "7")).page - 1) * (pagination (some "3") (some "7")).limit :=
  ⟨(c8_pagination_defaults (some "3") (some "7")).2.2.1 3 (by decide) (by decide),
   (c8_pagination_defaults (some "7") (some "abc")).2.2.2.2.1 (by decide),
   (c8_pagination_defaults (some "3") (some "7")).1⟩

/-! ## Claim C9 — filter stage -/

/-- C9 counterexample: a remaining key named `gt` (with no bracket operator)
does not become an equality constraint on the field `gt` — the textual regex
replacement rewrites the key itself to `$gt`. -/
theorem c9_literal_key_counterexample :
    filterStage [("gt", QVal.str "5")] = [("$gt", QVal.str "5")]
    ∧ filterStageClaimC9 [("gt", QVal.str "5")] = [("gt", QVal.str "5")]
    ∧ filterStage [("gt", QVal.str "5")] ≠ filterStageClaimC9 [("gt", QVal.str "5")] := by
  decide

/-- C9 (amended): the filter stage removes the reserved keys `page`, `sort`,
`limit`, `fields` (none of which survives into the output); every remaining
entry yields exactly one constraint; a bracket-suffixed operator
`gte`/`gt`/`lte`/`lt` under an operator-free field name becomes the
`$`-prefixed comparison constraint; and every other remaining key becomes an
equality constraint on the same-named field with its value unchanged,
provided neither the key nor the value contains `gte`/`gt`/`lte`/`lt` as a
word-boundary-delimited token (the `$` replacement is textual over the whole
serialized query, so such tokens anywhere in keys or values are rewritten
too). -/
theorem c9_filter_stage (q : QueryMap) :
    ((filterStage q).length = (q.filter (fun kv => !excludedFields.contains kv.1)).length)
    ∧ (∀ k v, (k, QVal.str v) ∈ q → k ∉ excludedFields →
        opFree k → opFree v → (k, QVal.str v) ∈ filterStage q)
    ∧ (∀ f op val, (f, QVal.obj [(op, val)]) ∈ q → f ∉ excludedFields →
        op ∈ (["gte", "gt", "lte", "lt"] : List String) →
        opFree f → opFree val →
        (f, QVal.obj [("$" ++ op, val)]) ∈ filterStage q)
    ∧ (∀ k, k ∈ excludedFields → ∀ v, (k, v) ∉ filterStage q) := by
  refine ⟨by simp [filterStage], ?_, ?_, ?_⟩
  · intro k v hkv hex hk hv
    have h1 : (k, QVal.str v) ∈ q.filter (fun kv => !excludedFields.contains kv.1) :=
      List.mem_filter.mpr ⟨hkv, by simpa using hex⟩
    have h2 := List.mem_map_of_mem (fun kv => (replaceOps kv.1, replaceOpsVal kv.2)) h1
    rw [opFree] at hk hv
    simpa [filterStage, replaceOpsVal, hk, hv] using h2
  · intro f op val hkv hex hop hf hval
    have hops : replaceOps op = "$" ++ op := by
      fin_cases hop <;> decide
    have h1 : (f, QVal.obj [(op, val)]) ∈ q.filter (fun kv => !excludedFields.contains kv.1) :=
      List.mem_filter.mpr ⟨hkv, by simpa using hex⟩
    have h2 := List.mem_map_of_mem (fun kv => (replaceOps kv.1, replaceOpsVal kv.2)) h1
    rw [opFree] at hf hval
    simpa [filterStage, replaceOpsVal, hf, hval, hops] using h2
  · intro k hk v hmem
    obtain ⟨⟨k', v'⟩, hin, heq⟩ := List.mem_map.mp hmem
    have hkeep : k' ∉ excludedFields := by
      have := (List.mem_filter.mp hin).2
      simpa using this
    have hkk : replaceOps k' = k := congrArg Prod.fst heq
    rcases replaceOpsAux_eq_or_dollar false k'.data with hfix | hdol
    · have hfix2 : replaceOps k' = k' := by
        show String.mk (replaceOpsAux false k'.data) = k'
        rw [hfix]
      have : k' = k := by rw [← hkk, hfix2]
      exact hkeep (this ▸ hk)
    · have hdk : '$' ∈ k.data := by
        rw [← hkk]; exact hdol
      fin_cases hk <;> exact absurd hdk (by decide)

/-- C9 witness: on `?duration[gte]=5&page=2&difficulty=easy` the filter stage
keeps `difficulty=easy` as an equality constraint, turns `duration[gte]=5`
into a `$gte` comparison, and drops the reserved key `page`. -/
theorem c9_filter_stage_witness :
    ("difficulty", QVal.str "easy")
        ∈ filterStage
            [("duration", QVal.obj [("gte", "5")]), ("page", QVal.str "2"),
             ("difficulty", QVal.str "easy")]
    ∧ ("duration", QVal.obj [("$gte", "5")])
        ∈ filterStage
            [("duration", QVal.obj [("gte", "5")]), ("page", QVal.str "2"),
             ("difficulty", QVal.str "easy")]
    ∧ ("page", QVal.str "2")
        ∉ filterStage
            [("duration", QVal.obj [("gte", "5")]), ("page", QVal.str "2"),
             ("difficulty", QVal.str "easy")] :=
  ⟨(c9_filter_stage _).2.1 "difficulty" "easy" (by decide) (by decide) (by decide) (by decide),
   (c9_filter_stage _).2.2.1 "duration" "gte" "5" (by decide) (by decide) (by decide)
     (by decide) (by decide),
   (c9_filter_stage _).2.2.2 "page" (by decide) (QVal.str "2")⟩

/-! ## Claim C1 — review rating aggregation -/

/-- When a tour still has at least one review, settling a review write stores
exactly the review count and the arithmetic mean of the tour's ratings. -/
theorem settleTourRatings_of_reviews (db : List Review) (tid : String) (t : TourRatings)
    (h : tourReviewRatings db tid ≠ []) :
    settleTourRatings db tid t =
      ⟨(tourReviewRatings db tid).sum / ((tourReviewRatings db tid).length : ℚ),
       (tourReviewRatings db tid).length⟩ := by
  cases hm : db.filter (fun r => r.tour == tid) with
  | nil => exact absurd (by simp [tourReviewRatings, hm]) h
  | cons x xs =>
      simp [settleTourRatings, calcAverageRatings, ratingAggregate, tourReviewRatings, hm,
        qDivNat_eq, qSum_eq]

/-- When a tour has no remaining reviews, `calcAverageRatings` throws on
`stats[0]` and the tour's rating fields are left untouched. -/
theorem settleTourRatings_of_no_reviews (db : List Review) (tid : String) (t : TourRatings)
    (h : tourReviewRatings db tid = []) :
    settleTourRatings db tid t = t := by
  have hm : db.filter (fun r => r.tour == tid) = [] := by
    simpa [tourReviewRatings] using h
  simp [settleTourRatings, calcAverageRatings, ratingAggregate, hm]

/-- C1 counterexample: deleting a tour's only review leaves the aggregate
empty; `calcAverageRatings` reads `stats[0]` of an empty array and throws, so
the tour keeps its stale rating fields `(5, 1)` instead of reverting to the
defaults `(4.5, 0)`. -/
theorem c1_zero_reviews_counterexample :
    reviewDeleteSettle [⟨"r1", "Great tour", 5, "t1", "u1"⟩] "r1" ⟨5, 1⟩ = ([], ⟨5, 1⟩)
    ∧ (⟨5, 1⟩ : TourRatings) ≠ tourRatingsDefault
    ∧ calcAverageRatings [] "t1"
        = .error "TypeError: Cannot read properties of undefined (reading nRating)" :=
  ⟨by decide, by decide, rfl⟩

/-- C1 (amended): once a review create, update or delete settles, the owning
tour's `ratingsAverage` equals the arithmetic mean of the ratings of its
current reviews and `ratingsQuantity` equals their number — whenever at least
one review remains.  When the last review is deleted, `calcAverageRatings`
throws on the empty aggregate and the tour's rating fields keep their previous
(stale) values instead of reverting to the defaults. -/
theorem c1_rating_recompute (db : List Review) (r : Review) (rid : String)
    (newRating : ℚ) (t : TourRatings) :
    ((reviewCreateSettle db r t).2 =
        ⟨(tourReviewRatings (db ++ [r]) r.tour).sum
            / ((tourReviewRatings (db ++ [r]) r.tour).length : ℚ),
         (tourReviewRatings (db ++ [r]) r.tour).length⟩)
    ∧ (∀ r0, db.find? (fun x => x.id == rid) = some r0 →
        (reviewUpdateSettle db rid newRating t).2 =
          ⟨(tourReviewRatings
                (db.map (fun x => if x.id == rid then { x with rating := newRating } else x))
                r0.tour).sum
              / ((tourReviewRatings
                    (db.map (fun x => if x.id == rid then { x with rating := newRating } else x))
                    r0.tour).length : ℚ),
           (tourReviewRatings
                (db.map (fun x => if x.id == rid then { x with rating := newRating } else x))
                r0.tour).length⟩)
    ∧ (∀ r0, db.find? (fun x => x.id == rid) = some r0 →
        tourReviewRatings (db.filter (fun x => !(x.id == rid))) r0.tour ≠ [] →
        (reviewDeleteSettle db rid t).2 =
          ⟨(tourReviewRatings (db.filter (fun x => !(x.id == rid))) r0.tour).sum
              / ((tourReviewRatings (db.filter (fun x => !(x.id == rid))) r0.tour).length : ℚ),
           (tourReviewRatings (db.filter (fun x => !(x.id == rid))) r0.tour).length⟩)
    ∧ (∀ r0, db.find? (fun x => x.id == rid) = some r0 →
        tourReviewRatings (db.filter (fun x => !(x.id == rid))) r0.tour = [] →
        (reviewDeleteSettle db rid t).2 = t) := by
  refine ⟨?_, ?_, ?_, ?_⟩
  · have hne : tourReviewRatings (db ++ [r]) r.tour ≠ [] := by
      have hmem : r ∈ (db ++ [r]).filter (fun x => x.tour == r.tour) :=
        List.mem_filter.mpr ⟨by simp, by simp⟩
      exact List.ne_nil_of_mem (List.mem_map_of_mem Review.rating hmem)
    simpa [reviewCreateSettle] using
      settleTourRatings_of_reviews (db ++ [r]) r.tour t hne
  · intro r0 hf
    have hr0 : r0 ∈ db := List.mem_of_find?_eq_some hf
    have hid : (r0.id == rid) = true := by simpa using List.find?_some hf
    have hne : tourReviewRatings
        (db.map (fun x => if x.id == rid then { x with rating := newRating } else x))
        r0.tour ≠ [] := by
      have himg : ({ r0 with rating := newRating } : Review)
          ∈ db.map (fun x => if x.id == rid then { x with rating := newRating } else x) := by
        have := List.mem_map_of_mem
          (fun x => if x.id == rid then { x with rating := newRating } else x) hr0
        simpa [hid] using this
      have hfil : ({ r0 with rating := newRating } : Review)
          ∈ (db.map (fun x => if x.id == rid then { x with rating := newRating } else x)).filter
              (fun x => x.tour == r0.tour) :=
        List.mem_filter.mpr ⟨himg, by simp⟩
      exact List.ne_nil_of_mem (List.mem_map_of_mem Review.rating hfil)
    simpa [reviewUpdateSettle, hf] using
      settleTourRatings_of_reviews _ r0.tour t hne
  · intro r0 hf hne
    simpa [reviewDeleteSettle, hf] using
      settleTourRatings_of_reviews _ r0.tour t hne
  · intro r0 hf hnil
    simpa [reviewDeleteSettle, hf] using
      settleTourRatings_of_no_reviews _ r0.tour t hnil

/-- C1 witness: with reviews rated 5 and 3 on one tour, deleting the 5-rated
review settles the tour at average 3 with count 1. -/
theorem c1_rating_recompute_witness :
    (reviewDeleteSettle
        [⟨"r1", "Great tour", 5, "t1", "u1"⟩, ⟨"r2", "Good", 3, "t1", "u2"⟩]
        "r1" ⟨4, 2⟩).2 = ⟨3, 1⟩ := by
  have h := (c1_rating_recompute
      [⟨"r1", "Great tour", 5, "t1", "u1"⟩, ⟨"r2", "Good", 3, "t1", "u2"⟩]
      ⟨"r2", "Good", 3, "t1", "u2"⟩ "r1" 0 ⟨4, 2⟩).2.2.1
      ⟨"r1", "Great tour", 5, "t1", "u1"⟩ (by decide) (by decide)
  rw [h]
  have h2 : tourReviewRatings
      (([⟨"r1", "Great tour", 5, "t1", "u1"⟩, ⟨"r2", "Good", 3, "t1", "u2"⟩] :
          List Review).filter (fun x => !(x.id == "r1")))
      (⟨"r1", "Great tour", 5, "t1", "u1"⟩ : Review).tour = [3] := by decide
  rw [h2]
  simp

/-! ## Claim C2 — token freshness against password changes -/

/-- C2: for a request carrying a cryptographically valid token whose subject
resolves to an existing active user, `protect` rejects with 401 when the
recorded password change is later (in whole seconds, as the code compares)
than the token's issue time, and accepts when the token was issued after the
most recent password change (or the password never changed). -/
theorem c2_password_freshness (store : List UserDoc) (p : TokenPayload) (u : UserDoc)
    (hfind : findById store p.id = some u) :
    (∀ c, u.passwordChangedAt = some c → p.iat < c / 1000 →
        protect store (some p) = .err 401 "Password recently changed! Please login again")
    ∧ (∀ c, u.passwordChangedAt = some c → c / 1000 < p.iat →
        protect store (some p) = .ok u)
    ∧ (u.passwordChangedAt = none → protect store (some p) = .ok u) := by
  refine ⟨?_, ?_, ?_⟩
  · intro c hc hlt
    simp [protect, hfind, changedPasswordAfter, hc, hlt]
  · intro c hc hgt
    have hnot : ¬ p.iat < c / 1000 := by omega
    simp [protect, hfind, changedPasswordAfter, hc, hnot]
  · intro hc
    simp [protect, hfind, changedPasswordAfter, hc]

/-- C2 witness: a user whose password change is recorded at second 2000; the
token issued at second 1999 is rejected with 401, the one issued at 2001 is
accepted. -/
theorem c2_password_freshness_witness :
    protect
        [⟨"u1", "Alice", "alice@example.com", "user", "p.jpg", some "hash", none,
          some 2000000, none, none, true⟩]
        (some ⟨"u1", 1999⟩)
      = .err 401 "Password recently changed! Please login again"
    ∧ protect
        [⟨"u1", "Alice", "alice@example.com", "user", "p.jpg", some "hash", none,
          some 2000000, none, none, true⟩]
        (some ⟨"u1", 2001⟩)
      = .ok ⟨"u1", "Alice", "alice@example.com", "user", "p.jpg", some "hash", none,
          some 2000000, none, none, true⟩ :=
  ⟨(c2_password_freshness
      [⟨"u1", "Alice", "alice@example.com", "user", "p.jpg", some "hash", none,
        some 2000000, none, none, true⟩] ⟨"u1", 1999⟩
      ⟨"u1", "Alice", "alice@example.com", "user", "p.jpg", some "hash", none,
        some 2000000, none, none, true⟩ (by decide)).1 2000000 rfl (by decide),
   (c2_password_freshness
      [⟨"u1", "Alice", "alice@example.com", "user", "p.jpg", some "hash", none,
        some 2000000, none, none, true⟩] ⟨"u1", 2001⟩
      ⟨"u1", "Alice", "alice@example.com", "user", "p.jpg", some "hash", none,
        some 2000000, none, none, true⟩ (by decide)).2.1 2000000 rfl (by decide)⟩

/-! ## Claim C3 — nested-route filter injection in `getAll` -/

/-- C3: on the nested list route (a `tourId` URL parameter is present), every
review the `getAll` handler returns references that tour — the implicit
equality filter is injected before the user-supplied stages, which only
narrow, reorder (`hsort`) and slice the row set. -/
theorem c3_nested_route_filter (db : List Review) (tid : String)
    (userFilter : Review → Bool) (sortPass : List Review → List Review)
    (skip lim : Nat) (r : Review)
    (hsort : ∀ l x, x ∈ sortPass l → x ∈ l)
    (hr : r ∈ (getAllReviews db (some tid) userFilter sortPass skip lim).1) :
    r.tour = tid := by
  simp only [getAllReviews] at hr
  have h1 := List.mem_of_mem_take hr
  have h2 := List.drop_subset _ _ h1
  have h3 := hsort _ _ h2
  have h4 := (List.mem_filter.mp h3).1
  have h5 := (List.mem_filter.mp h4).2
  simpa using h5

/-- C3 witness: on `/tours/t1/reviews` with no user filter, the returned
review's tour reference is `t1`. -/
theorem c3_nested_route_filter_witness :
    (⟨"r1", "Great tour", 5, "t1", "u1"⟩ : Review).tour = "t1" :=
  c3_nested_route_filter
    [⟨"r1", "Great tour", 5, "t1", "u1"⟩, ⟨"r2", "Bad", 2, "t2", "u2"⟩] "t1"
    (fun _ => true) id 0 100 ⟨"r1", "Great tour", 5, "t1", "u1"⟩
    (fun _ _ h => h) (by decide)

/-! ## Claim C4 — admin POST /users -/

/-- C4 counterexample: an authenticated admin POST /users with a valid user
body is answered 500 "This route is not yet defined" and persists nothing —
not 201 with a new record (the route's own test asserts the 500). -/
theorem c4_create_user_counterexample :
    postUsers
        [⟨"a1", "Admin", "admin@example.com", "admin", "p.jpg", some "hash", none,
          none, none, none, true⟩]
        (some ⟨"a1", 10⟩)
      = ([⟨"a1", "Admin", "admin@example.com", "admin", "p.jpg", some "hash", none,
          none, none, none, true⟩],
         (500, "error", "This route is not yet defined"))
    ∧ (500 : Nat) ≠ 201 := by
  exact ⟨by decide, by decide⟩

/-- C4 (amended): for every authenticated admin POST /users request, the
`createUser` handler is a disabled placeholder: it answers
500 "This route is not yet defined", never reads the body, and persists no
user record (admin user creation is deferred to the signup flow). -/
theorem c4_create_user_disabled (store : List UserDoc) (token : Option TokenPayload)
    (u : UserDoc) (hp : protect store token = .ok u) (hrole : u.role = "admin") :
    postUsers store token = (store, (500, "error", "This route is not yet defined")) := by
  simp [postUsers, hp, restrictTo, hrole, createUser]

/-- C4 witness: a concrete admin request hits the disabled handler. -/
theorem c4_create_user_disabled_witness :
    postUsers
        [⟨"a2", "Root", "root@example.com", "admin", "p.jpg", some "hash", none,
          none, none, none, true⟩]
        (some ⟨"a2", 10⟩)
      = ([⟨"a2", "Root", "root@example.com", "admin", "p.jpg", some "hash", none,
          none, none, none, true⟩],
         (500, "error", "This route is not yet defined")) :=
  c4_create_user_disabled
    [⟨"a2", "Root", "root@example.com", "admin", "p.jpg", some "hash", none,
      none, none, none, true⟩]
    (some ⟨"a2", 10⟩)
    ⟨"a2", "Root", "root@example.com", "admin", "p.jpg", some "hash", none,
      none, none, none, true⟩
    (by decide) rfl

/-! ## Claim C5 — password-reset token -/

/-- C5: a reset request whose re-hashed token matches a stored hash with a
live expiry on an active user replaces that user's password (re-hashed by the
pre-save hook) and clears both reset fields, answering 200; when no stored
document matches — in particular after the token's stored 10-minute expiry
has passed, on a second use of the same token once the fields are cleared, or
when the token-holder has been soft-deleted (the `pre(/^find/)` active filter
hides the document) — the request is answered 400 and the store is not
modified. -/
theorem c5_reset_token (sha256Hex bcryptHash : String → String) (store : List UserDoc)
    (tok pw : String) (now : Nat) :
    (∀ u, store.find? (resetMatcher (sha256Hex tok) now) = some u →
      ∃ st resp, resetPassword sha256Hex bcryptHash store tok pw pw now = .ok (st, resp)
        ∧ resp.statusCode = 200
        ∧ (∀ v ∈ st, v.id = u.id →
            v.password = some (bcryptHash pw) ∧ v.passwordResetToken = none
              ∧ v.passwordResetExpires = none)
        ∧ (∀ v ∈ st, v.id ≠ u.id → v ∈ store))
    ∧ ((∀ u ∈ store, resetMatcher (sha256Hex tok) now u = false) →
        resetPassword sha256Hex bcryptHash store tok pw pw now
          = .error (400, "Token is invalid or has expired"))
    ∧ (∀ u : UserDoc, ∀ e, u.passwordResetExpires = some e → e ≤ now →
        resetMatcher (sha256Hex tok) now u = false)
    ∧ (∀ u : UserDoc, u.active = false → resetMatcher (sha256Hex tok) now u = false)
    ∧ (∀ u st resp pw2 now2, store.find? (resetMatcher (sha256Hex tok) now) = some u →
        resetPassword sha256Hex bcryptHash store tok pw pw now = .ok (st, resp) →
        (∀ v ∈ store, v.id ≠ u.id → v.passwordResetToken ≠ some (sha256Hex tok)) →
        resetPassword sha256Hex bcryptHash st tok pw2 pw2 now2
          = .error (400, "Token is invalid or has expired"))
    ∧ (∀ u rt now0,
        (createPasswordResetToken sha256Hex rt now0 u).1.passwordResetToken
            = some (sha256Hex rt)
        ∧ (createPasswordResetToken sha256Hex rt now0 u).1.passwordResetExpires
            = some (now0 + 10 * 60 * 1000)) := by
  refine ⟨?_, ?_, ?_, ?_, ?_, ?_⟩
  · intro u hf
    simp only [resetPassword, hf]
    rw [if_neg (by simp)]
    refine ⟨_, _, rfl, rfl, ?_, ?_⟩
    · intro v hv hid
      obtain ⟨w, hw, hweq⟩ := List.mem_map.mp hv
      by_cases hwid : (w.id == u.id) = true
      · rw [if_pos hwid] at hweq
        rw [← hweq]
        refine ⟨?_, ?_, ?_⟩ <;>
          simp [saveUser, preSaveHashPassword, preSaveChangedAt]
      · rw [if_neg hwid] at hweq
        rw [← hweq] at hid
        simp [hid] at hwid
    · intro v hv hid
      obtain ⟨w, hw, hweq⟩ := List.mem_map.mp hv
      by_cases hwid : (w.id == u.id) = true
      · rw [if_pos hwid] at hweq
        have : v.id = u.id := by
          rw [← hweq]
          simp [saveUser, preSaveHashPassword, preSaveChangedAt]
        exact absurd this hid
      · rw [if_neg hwid] at hweq
        rw [← hweq]
        exact hw
  · intro h
    have hnone : store.find? (resetMatcher (sha256Hex tok) now) = none :=
      List.find?_eq_none.mpr (fun x hx => by simp [h x hx])
    simp [resetPassword, hnone]
  · intro u e he hle
    have hne : ¬ now < e := by omega
    simp [resetMatcher, he, hne]
  · intro u hact
    simp [resetMatcher, hact]
  · intro u st resp pw2 now2 hf hok hothers
    simp only [resetPassword, hf] at hok
    rw [if_neg (by simp)] at hok
    obtain ⟨hst, -⟩ := by simpa using hok
    have hnone : st.find? (resetMatcher (sha256Hex tok) now2) = none := by
      refine List.find?_eq_none.mpr (fun v hv => ?_)
      rw [← hst] at hv
      obtain ⟨w, hw, hweq⟩ := List.mem_map.mp hv
      by_cases hwid : w.id = u.id
      · rw [if_pos hwid] at hweq
        have : v.passwordResetToken = none := by
          rw [← hweq]
          simp [saveUser, preSaveHashPassword, preSaveChangedAt]
        simp [resetMatcher, this]
      · rw [if_neg hwid] at hweq
        have := hothers w hw hwid
        rw [← hweq]
        simp [resetMatcher, this]
    simp [resetPassword, hnone]
  · intro u rt now0
    exact ⟨rfl, rfl⟩

/-- C5 witness: with a stored token hash `H(tok)` expiring at millisecond 700,
a reset at millisecond 600 by the active holder succeeds, replaces the
password with the new hash and clears the reset fields; the same reset after
the expiry, or while the token-holder is soft-deleted (`active: false`), is
answered 400. -/
theorem c5_reset_token_witness :
    (∃ st resp,
      resetPassword (fun s => "H" ++ s) (fun s => "B" ++ s)
          [⟨"u1", "Alice", "alice@example.com", "user", "p.jpg", some "old", none,
            none, some "Htok", some 700, true⟩]
          "tok" "newpass123" "newpass123" 600 = .ok (st, resp)
        ∧ resp.statusCode = 200
        ∧ (∀ v ∈ st, v.id = "u1" →
            v.password = some "Bnewpass123" ∧ v.passwordResetToken = none
              ∧ v.passwordResetExpires = none))
    ∧ resetPassword (fun s => "H" ++ s) (fun s => "B" ++ s)
          [⟨"u1", "Alice", "alice@example.com", "user", "p.jpg", some "old", none,
            none, some "Htok", some 700, true⟩]
          "tok" "newpass123" "newpass123" 900
        = .error (400, "Token is invalid or has expired")
    ∧ resetPassword (fun s => "H" ++ s) (fun s => "B" ++ s)
          [⟨"u1", "Alice", "alice@example.com", "user", "p.jpg", some "old", none,
            none, some "Htok", some 700, false⟩]
          "tok" "newpass123" "newpass123" 600
        = .error (400, "Token is invalid or has expired") := by
  constructor
  · obtain ⟨st, resp, h1, h2, h3, -⟩ :=
      (c5_reset_token (fun s => "H" ++ s) (fun s => "B" ++ s)
        [⟨"u1", "Alice", "alice@example.com", "user", "p.jpg", some "old", none,
          none, some "Htok", some 700, true⟩]
        "tok" "newpass123" 600).1
        ⟨"u1", "Alice", "alice@example.com", "user", "p.jpg", some "old", none,
          none, some "Htok", some 700, true⟩ (by decide)
    exact ⟨st, resp, h1, h2, h3⟩
  constructor
  · exact (c5_reset_token (fun s => "H" ++ s) (fun s => "B" ++ s)
      [⟨"u1", "Alice", "alice@example.com", "user", "p.jpg", some "old", none,
        none, some "Htok", some 700, true⟩]
      "tok" "newpass123" 900).2.1 (by decide)
  · exact (c5_reset_token (fun s => "H" ++ s) (fun s => "B" ++ s)
      [⟨"u1", "Alice", "alice@example.com", "user", "p.jpg", some "old", none,
        none, some "Htok", some 700, false⟩]
      "tok" "newpass123" 600).2.1 (by decide)

/-! ## Claim C6 — soft delete versus admin hard delete -/

/-- C6: `deleteMe` answers 204 and flips only the requester's `active` flag —
the record stays in the store with every other field unchanged and all other
records untouched — after which any request authenticated with that user's
still-valid token gets 401 "User no longer exists"; an admin
DELETE /users/:id of an active user removes the record from the store. -/
theorem c6_soft_delete (store : List UserDoc) (uid : String) (p : TokenPayload) :
    ((deleteMe store uid).2 = 204)
    ∧ ((deleteMe store uid).1.length = store.length)
    ∧ (∀ u ∈ store, u.id ≠ uid → u ∈ (deleteMe store uid).1)
    ∧ (∀ u ∈ store, u.id = uid → u.active = true →
        { u with active := false } ∈ (deleteMe store uid).1)
    ∧ (p.id = uid →
        protect (deleteMe store uid).1 (some p) = .err 401 "User no longer exists")
    ∧ (∀ u ∈ store, u.id = uid → u.active = true → (store.map UserDoc.id).Nodup →
        (adminDeleteUser store uid).2 = 204
          ∧ ∀ v ∈ (adminDeleteUser store uid).1, v.id ≠ uid) := by
  refine ⟨rfl, by simp [deleteMe], ?_, ?_, ?_, ?_⟩
  · intro u hu hne
    have := List.mem_map_of_mem
      (fun u => if u.id == uid && u.active then { u with active := false } else u) hu
    simpa [deleteMe, hne] using this
  · intro u hu hid hact
    have := List.mem_map_of_mem
      (fun u => if u.id == uid && u.active then { u with active := false } else u) hu
    simpa [deleteMe, hid, hact] using this
  · intro hpid
    have hnone : findById (deleteMe store uid).1 p.id = none := by
      rw [findById]
      refine List.find?_eq_none.mpr (fun v hv => ?_)
      obtain ⟨hvm, hvact⟩ := List.mem_filter.mp hv
      obtain ⟨w, hw, hweq⟩ := List.mem_map.mp hvm
      intro hvid
      have hvid2 : v.id = uid := by
        rw [← hpid]
        simpa using hvid
      by_cases hcond : (w.id == uid && w.active) = true
      · rw [if_pos hcond] at hweq
        rw [← hweq] at hvact
        simp at hvact
      · rw [if_neg hcond] at hweq
        rw [← hweq] at hvact hvid2
        simp only [Bool.and_eq_true, beq_iff_eq, not_and] at hcond
        have hwna : ¬ w.active = true := hcond hvid2
        simp at hvact
        exact hwna hvact
    simp [protect, hnone]
  · intro u hu hid hact hnodup
    have hmem : u ∈ store.filter (fun x => x.active != false) :=
      List.mem_filter.mpr ⟨hu, by simp [hact]⟩
    have hsome :
        ((store.filter (fun x => x.active != false)).find? (fun x => x.id == uid)).isSome := by
      rw [List.find?_isSome]
      exact ⟨u, hmem, by simp [hid]⟩
    obtain ⟨d, hd⟩ := Option.isSome_iff_exists.mp hsome
    have hdmem : d ∈ store := (List.mem_filter.mp (List.mem_of_find?_eq_some hd)).1
    have hdid : d.id = uid := by simpa using List.find?_some hd
    constructor
    · unfold adminDeleteUser
      rw [hd]
    · intro v hv
      unfold adminDeleteUser at hv
      rw [hd] at hv
      obtain ⟨hvmem, hvne⟩ := List.mem_filter.mp hv
      intro hvid
      have : v = d := List.inj_on_of_nodup_map hnodup hvmem hdmem (by rw [hvid, hdid])
      simp [this] at hvne

/-- C6 witness: a one-user store; `deleteMe` keeps the (deactivated) record,
the user's still-valid token now gets 401, and the admin hard delete empties
the store. -/
theorem c6_soft_delete_witness :
    (deleteMe
        [⟨"u1", "Alice", "alice@example.com", "user", "p.jpg", some "hash", none,
          none, none, none, true⟩] "u1").2 = 204
    ∧ protect
        (deleteMe
          [⟨"u1", "Alice", "alice@example.com", "user", "p.jpg", some "hash", none,
            none, none, none, true⟩] "u1").1
        (some ⟨"u1", 10⟩) = .err 401 "User no longer exists"
    ∧ (adminDeleteUser
        [⟨"u1", "Alice", "alice@example.com", "user", "p.jpg", some "hash", none,
          none, none, none, true⟩] "u1").2 = 204
    ∧ (∀ v ∈ (adminDeleteUser
        [⟨"u1", "Alice", "alice@example.com", "user", "p.jpg", some "hash", none,
          none, none, none, true⟩] "u1").1, v.id ≠ "u1") := by
  have h := c6_soft_delete
    [⟨"u1", "Alice", "alice@example.com", "user", "p.jpg", some "hash", none,
      none, none, none, true⟩] "u1" ⟨"u1", 10⟩
  have hadmin := h.2.2.2.2.2
    ⟨"u1", "Alice", "alice@example.com", "user", "p.jpg", some "hash", none,
      none, none, none, true⟩ (by decide) rfl rfl (by decide)
  exact ⟨h.1, h.2.2.2.2.1 rfl, hadmin.1, hadmin.2⟩

/-! ## Claim C7 — passwords stored hashed and never returned -/

/-- C7: a successful signup persists the bcrypt hash of the submitted
password — never the plaintext (`hbc` records that a bcrypt digest is never
its own input) — drops the plaintext confirmation, and the password field is
absent both from the auth response (`createSendToken` blanks it) and from
default query projections (the schema's `select: false`). -/
theorem c7_password_never_plaintext (bcryptHash : String → String)
    (hbc : ∀ s, bcryptHash s ≠ s) (store : List UserDoc) (b : SignupBody)
    (newId : String) (now : Nat) (hpw : b.password = b.passwordConfirm) :
    ∃ newU resp, signup bcryptHash store b newId now = .ok (store ++ [newU], resp)
      ∧ newU.password = some (bcryptHash b.password)
      ∧ newU.password ≠ some b.password
      ∧ newU.passwordConfirm = none
      ∧ resp.statusCode = 201
      ∧ resp.user.password = none
      ∧ (∀ v : UserDoc, (applyDefaultSelect v).password = none) := by
  refine ⟨saveUser bcryptHash now true true
      { id := newId, name := b.name, email := b.email, role := "user",
        photo := "default.jpg", password := some b.password,
        passwordConfirm := some b.passwordConfirm, passwordChangedAt := none,
        passwordResetToken := none, passwordResetExpires := none, active := true },
    createSendToken
      (saveUser bcryptHash now true true
        { id := newId, name := b.name, email := b.email, role := "user",
          photo := "default.jpg", password := some b.password,
          passwordConfirm := some b.passwordConfirm, passwordChangedAt := none,
          passwordResetToken := none, passwordResetExpires := none, active := true })
      201 now,
    ?_, ?_, ?_, ?_, rfl, rfl, fun v => rfl⟩
  · simp [signup, hpw]
  · simp [saveUser, preSaveHashPassword, preSaveChangedAt]
  · simp only [saveUser, preSaveHashPassword, preSaveChangedAt]
    intro h
    simp at h
    exact hbc b.password h
  · simp [saveUser, preSaveHashPassword, preSaveChangedAt]

/-- C7 witness: a signup against the empty store with a matching password
pair, hashing with a function that prefixes `$` (never the identity). -/
theorem c7_password_never_plaintext_witness :
    ∃ newU resp,
      signup (fun s => "$" ++ s) []
          ⟨"Alice", "alice@example.com", "pass1234", "pass1234"⟩ "u1" 5
        = .ok ([] ++ [newU], resp)
      ∧ newU.password = some ((fun s => "$" ++ s) "pass1234")
      ∧ newU.password ≠ some "pass1234"
      ∧ newU.passwordConfirm = none
      ∧ resp.statusCode = 201
      ∧ resp.user.password = none
      ∧ (∀ v : UserDoc, (applyDefaultSelect v).password = none) :=
  c7_password_never_plaintext (fun s => "$" ++ s)
    (by
      intro s h
      have hlen := congrArg String.length h
      rw [String.length_append] at hlen
      have hone : ("$" : String).length = 1 := rfl
      omega)
    [] ⟨"Alice", "alice@example.com", "pass1234", "pass1234"⟩ "u1" 5 rfl

/-! ## Claim C10 — `setTourUserIds` body normalisation -/

/-- C10 counterexample: on the non-nested route (no `tourId` URL parameter)
with no `body.tour`, the fallback branch IS reachable: a client-supplied
`body.tourId` becomes `body.tour`, contradicting the claim that those
branches are unreachable and that a client-supplied `tourId` key is never
used. -/
theorem c10_tourid_fallback_counterexample :
    (setTourUserIds none "u1" ⟨none, none, some "t9", some "u9"⟩).tour = some "t9"
    ∧ setTourUserIds none "u1" ⟨none, none, some "t9", some "u9"⟩
        ≠ setTourUserIdsClaimC10 none "u1" ⟨none, none, some "t9", some "u9"⟩ := by
  decide

/-- C10 (amended): `setTourUserIds` deletes the raw `tourId`/`userId` keys
after defaulting; `body.tour` keeps a truthy client value, else comes from the
URL's `tourId` parameter, and — when the route is not nested (no truthy
parameter) — falls back to a truthy client-supplied `body.tourId`;
`body.user` keeps a truthy client value and otherwise is always the
authenticated user's id (so the `body.userId` fallback really is
unreachable, the requester id being non-empty). -/
theorem c10_set_tour_user_ids (paramsTourId : Option String) (reqUserId : String)
    (b : ReviewBody) (huid : reqUserId ≠ "") :
    ((setTourUserIds paramsTourId reqUserId b).tourId = none
      ∧ (setTourUserIds paramsTourId reqUserId b).userId = none)
    ∧ (jsTruthy b.tour = true → (setTourUserIds paramsTourId reqUserId b).tour = b.tour)
    ∧ (jsTruthy b.tour = false → jsTruthy paramsTourId = true →
        (setTourUserIds paramsTourId reqUserId b).tour = paramsTourId)
    ∧ (jsTruthy b.tour = false → jsTruthy paramsTourId = false →
        jsTruthy b.tourId = true →
        (setTourUserIds paramsTourId reqUserId b).tour = b.tourId)
    ∧ (jsTruthy b.tour = false → jsTruthy paramsTourId = false →
        jsTruthy b.tourId = false →
        (setTourUserIds paramsTourId reqUserId b).tour = paramsTourId)
    ∧ (jsTruthy b.user = true → (setTourUserIds paramsTourId reqUserId b).user = b.user)
    ∧ (jsTruthy b.user = false →
        (setTourUserIds paramsTourId reqUserId b).user = some reqUserId) := by
  have hru : jsTruthy (some reqUserId) = true := by simp [jsTruthy, huid]
  refine ⟨⟨rfl, rfl⟩, ?_, ?_, ?_, ?_, ?_, ?_⟩ <;>
    intros <;>
    simp_all [setTourUserIds, apply_ite ReviewBody.tour, apply_ite ReviewBody.user]

/-- C10 witness: on the nested route the body gets the URL's tour id and the
authenticated user's id, and the raw keys are stripped. -/
theorem c10_set_tour_user_ids_witness :
    (setTourUserIds (some "t1") "u1" ⟨none, none, none, none⟩).tour = some "t1"
    ∧ (setTourUserIds (some "t1") "u1" ⟨none, none, none, none⟩).user = some "u1"
    ∧ (setTourUserIds (some "t1") "u1" ⟨none, none, none, none⟩).tourId = none := by
  have h := c10_set_tour_user_ids (some "t1") "u1" ⟨none, none, none, none⟩ (by decide)
  exact ⟨h.2.2.1 rfl (by decide), h.2.2.2.2.2.2 rfl, h.1.1⟩

end Natours
